import Mathlib

/-!
Shallow embedding of the envpkt core (audit engine, catalog resolver,
credential pattern registry) and proofs about it.

Sources embedded:
- src/core/audit.ts   (`parseDate`, `daysBetween`, `classifySecret`, `computeAudit`)
- src/core/catalog.ts (`loadCatalog`, `resolveSecrets`, `resolveConfig`)
- src/core/patterns.ts (`EXCLUDED_VARS`, `EXACT_NAME_PATTERNS`, `SUFFIX_PATTERNS`,
  `VALUE_SHAPE_PATTERNS`, `matchValueShape`, `deriveServiceFromName`,
  `matchEnvVar`, `scanEnv`)
- src/core/schema.ts / types.ts (the data model these functions operate on)

Modelling conventions:
- A valid JavaScript `Date` is modelled as its millisecond timestamp (`Int`).
- `Option<T>` from functype is modelled as `Option`.
- A TypeScript `Record<string, T>` is modelled as an association list
  `List (String × T)` in insertion order; records produced by the config
  loader have pairwise-distinct keys.
- A `ReadonlySet<string>` is modelled as a `List String` queried by membership
  (`size > 0` becomes non-emptiness, `has` becomes `contains`).
- JavaScript numbers appearing in the core are integral wherever the engine
  reads them (day counts, thresholds); they are modelled as `Int` / `Nat`.
-/

namespace Envpkt

/-- Milliseconds per day; `MS_PER_DAY` in audit.ts. -/
def MS_PER_DAY : Int := 86400000

/-- Embeds `daysBetween` from audit.ts: `Math.floor((to - from) / MS_PER_DAY)`.
`Math.floor` of a quotient with positive divisor is floor division (`Int.fdiv`). -/
def daysBetween (fromMs toMs : Int) : Int := Int.fdiv (toMs - fromMs) MS_PER_DAY

/-- Gregorian leap-year rule, as implemented by the JavaScript Date object. -/
def isLeapYear (y : Int) : Bool := (y % 4 == 0 && y % 100 != 0) || (y % 400 == 0)

/-- Number of days in month `m` of year `y` (months numbered 1..12). -/
def daysInMonth (y m : Int) : Int :=
  if m = 2 then (if isLeapYear y then 29 else 28)
  else if m = 4 ∨ m = 6 ∨ m = 9 ∨ m = 11 then 30
  else 31

/-- Days since the Unix epoch of the civil date `y-m-d` (proleptic Gregorian),
the arithmetic the JavaScript engine performs for `Date.UTC(y, m-1, d)`. -/
def daysFromCivil (y m d : Int) : Int :=
  let yAdj := if m ≤ 2 then y - 1 else y
  let era := Int.fdiv yAdj 400
  let yoe := yAdj - era * 400
  let mp := Int.emod (m + 9) 12
  let doy := Int.fdiv (153 * mp + 2) 5 + d - 1
  let doe := yoe * 365 + Int.fdiv yoe 4 - Int.fdiv yoe 100 + doy
  era * 146097 + doe - 719468

/-- Interpret a list of decimal digit characters as a number; `none` if any
character is not a digit or the list is empty. -/
def digitsToNat (cs : List Char) : Option Nat :=
  if cs ≠ [] ∧ cs.all Char.isDigit then
    some (cs.foldl (fun a c => a * 10 + (c.toNat - 48)) 0)
  else none

/-- Split a character list on the hyphen character, keeping empty segments
(the semantics of splitting a string on a one-character separator). -/
def splitDash : List Char → List (List Char)
  | [] => [[]]
  | c :: rest =>
    let r := splitDash rest
    if c = '-' then [] :: r
    else
      match r with
      | [] => [[c]]
      | h :: t => (c :: h) :: t

/-- Embeds `parseDate` from audit.ts: `new Date(dateStr + "T00:00:00Z")`,
returning `none` when the result is `NaN`. The configuration schema restricts
date strings to the shape `YYYY-MM-DD`; for that shape the ECMAScript
date-time string format accepts exactly the calendar-valid dates and yields
the UTC-midnight timestamp. Strings outside that shape are rejected, matching
the engine for schema-validated input. -/
def parseDate (s : String) : Option Int :=
  match splitDash s.data with
  | [ys, ms, ds] =>
    if ys.length = 4 ∧ ms.length = 2 ∧ ds.length = 2 then
      match digitsToNat ys, digitsToNat ms, digitsToNat ds with
      | some y, some m, some d =>
        if 1 ≤ m ∧ m ≤ 12 ∧ 1 ≤ d ∧ (d : Int) ≤ daysInMonth (y : Int) (m : Int) then
          some (daysFromCivil (y : Int) (m : Int) (d : Int) * MS_PER_DAY)
        else none
      | _, _, _ => none
    else none
  | _ => none

/-- Embeds functype `Option.fold(ifNone, ifSome)`. -/
def optionFold (o : Option α) (ifNone : β) (ifSome : α → β) : β :=
  match o with
  | none => ifNone
  | some a => ifSome a

-- --- Data model (schema.ts / types.ts) ---

/-- Per-secret status union `SecretStatus` from types.ts. -/
inductive SecretStatus
  | healthy
  | expiring_soon
  | expired
  | stale
  | missing
  | missing_metadata
deriving DecidableEq

/-- Aggregate status union `HealthStatus` from types.ts. -/
inductive HealthStatus
  | healthy
  | degraded
  | critical
deriving DecidableEq

/-- Metadata about a single secret; `SecretMetaSchema` from schema.ts.
Every field is optional; an absent TOML field is `none`.
`tags` is a string-to-string record, modelled as an association list. -/
structure SecretMeta where
  service : Option String := none
  expires : Option String := none
  rotation_url : Option String := none
  purpose : Option String := none
  capabilities : Option (List String) := none
  created : Option String := none
  rotates : Option String := none
  rate_limit : Option String := none
  model_hint : Option String := none
  source : Option String := none
  required : Option Bool := none
  tags : Option (List (String × String)) := none
deriving DecidableEq

/-- Lifecycle policy `LifecycleConfigSchema` from schema.ts. -/
structure LifecycleConfig where
  stale_warning_days : Option Int := none
  require_expiration : Option Bool := none
  require_service : Option Bool := none
deriving DecidableEq

/-- Consumer classification enum `ConsumerType` from schema.ts. -/
inductive ConsumerType
  | agent
  | service
  | developer
  | ci
deriving DecidableEq

/-- Agent identity header `AgentIdentitySchema` from schema.ts, together with
the `secrets` list of catalog keys consumed by catalog.ts. -/
structure AgentIdentity where
  name : String
  consumer : Option ConsumerType := none
  description : Option String := none
  capabilities : Option (List String) := none
  expires : Option String := none
  services : Option (List String) := none
  secrets : Option (List String) := none
  identity : Option String := none
  recipient : Option String := none
deriving DecidableEq

/-- Automation callbacks `CallbackConfigSchema` from schema.ts. -/
structure CallbackConfig where
  on_expiring : Option String := none
  on_expired : Option String := none
  on_audit_fail : Option String := none
deriving DecidableEq

/-- Top-level configuration `EnvpktConfigSchema` from schema.ts, together with
the `catalog` reference consumed by catalog.ts. The open-namespace `tools`
record (`Record<string, unknown>`) is opaque to every core function — it is
only ever passed through unchanged — and is not modelled. -/
structure EnvpktConfig where
  version : Int := 1
  agent : Option AgentIdentity := none
  meta : List (String × SecretMeta)
  lifecycle : Option LifecycleConfig := none
  callbacks : Option CallbackConfig := none
  catalog : Option String := none
deriving DecidableEq

/-- Per-key audit output `SecretHealth` from types.ts. -/
structure SecretHealth where
  key : String
  service : Option String
  status : SecretStatus
  days_remaining : Option Int
  rotation_url : Option String
  purpose : Option String
  created : Option String
  expires : Option String
  issues : List String
deriving DecidableEq

/-- Aggregate audit output `AuditResult` from types.ts. -/
structure AuditResult where
  status : HealthStatus
  secrets : List SecretHealth
  total : Nat
  healthy : Nat
  expiring_soon : Nat
  expired : Nat
  stale : Nat
  missing : Nat
  missing_metadata : Nat
  orphaned : Nat
  agent : Option AgentIdentity
deriving DecidableEq

-- --- Audit engine (audit.ts) ---

/-- Hard-coded warning window `WARN_BEFORE_DAYS` from audit.ts. -/
def WARN_BEFORE_DAYS : Int := 30

/-- Embeds `classifySecret` from audit.ts. `today` is the millisecond
timestamp of the injected current date; `fnoxKeys` is the externally-known
key set. -/
def classifySecret (key : String) (meta : SecretMeta) (fnoxKeys : List String)
    (staleWarningDays : Int) (requireExpiration requireService : Bool)
    (today : Int) : SecretHealth :=
  let created := meta.created.bind parseDate
  let expires := meta.expires.bind parseDate
  let rotationUrl := meta.rotation_url
  let purpose := meta.purpose
  let service := meta.service
  let daysRemaining := expires.map (fun exp => daysBetween today exp)
  let daysSinceCreated := created.map (fun c => daysBetween c today)
  let isExpired := optionFold daysRemaining false (fun d => decide (d < 0))
  let isExpiringSoon :=
    optionFold daysRemaining false (fun d => decide (d ≥ 0) && decide (d ≤ WARN_BEFORE_DAYS))
  let isStale := optionFold daysSinceCreated false (fun d => decide (d > staleWarningDays))
  let isMissing := !fnoxKeys.isEmpty && !fnoxKeys.contains key
  let isMissingMetadata :=
    (requireExpiration && expires.isNone) || (requireService && service.isNone)
  let issues :=
    (if isExpired then ["Secret has expired"] else []) ++
    (if isExpiringSoon then
      ["Expires in " ++ optionFold daysRemaining "?" toString ++ " days"] else []) ++
    (if isStale then ["Secret is stale (no rotation detected)"] else []) ++
    (if isMissing then ["Key not found in fnox"] else []) ++
    (if isMissingMetadata then
      (if requireExpiration && expires.isNone then ["Missing required expiration date"] else []) ++
      (if requireService && service.isNone then ["Missing required service"] else [])
     else [])
  let status : SecretStatus :=
    if isExpired then .expired
    else if isMissing then .missing
    else if isMissingMetadata then .missing_metadata
    else if isExpiringSoon then .expiring_soon
    else if isStale then .stale
    else .healthy
  { key := key
    service := service
    status := status
    days_remaining := daysRemaining
    rotation_url := rotationUrl
    purpose := purpose
    created := meta.created
    expires := meta.expires
    issues := issues }

/-- Embeds `computeAudit` from audit.ts. The source takes the known-key set
and the current date as optional parameters; the line
`const now = today ?? new Date()` defaults a missing date to a wall-clock
read inside the function. To make that observable in a pure embedding, the
ambient clock value the call would read is passed explicitly as `ambientNow`;
it is consulted exactly when `today` is `none`, mirroring `??`. -/
def computeAudit (config : EnvpktConfig) (fnoxKeys : Option (List String))
    (today : Option Int) (ambientNow : Int) : AuditResult :=
  let now := today.getD ambientNow
  let lifecycle := config.lifecycle.getD {}
  let staleWarningDays := lifecycle.stale_warning_days.getD 90
  let requireExpiration := lifecycle.require_expiration.getD false
  let requireService := lifecycle.require_service.getD false
  let keys := fnoxKeys.getD []
  let metaKeys := config.meta.map Prod.fst
  let secrets := config.meta.map (fun kv =>
    classifySecret kv.1 kv.2 keys staleWarningDays requireExpiration requireService now)
  let orphaned :=
    if !keys.isEmpty then (metaKeys.filter (fun k => !keys.contains k)).length else 0
  let total := secrets.length
  let expired := secrets.countP (fun s => s.status == SecretStatus.expired)
  let missing := secrets.countP (fun s => s.status == SecretStatus.missing)
  let missing_metadata := secrets.countP (fun s => s.status == SecretStatus.missing_metadata)
  let expiring_soon := secrets.countP (fun s => s.status == SecretStatus.expiring_soon)
  let stale := secrets.countP (fun s => s.status == SecretStatus.stale)
  let healthy := secrets.countP (fun s => s.status == SecretStatus.healthy)
  let status : HealthStatus :=
    if 0 < expired ∨ 0 < missing then .critical
    else if 0 < expiring_soon ∨ 0 < stale ∨ 0 < missing_metadata then .degraded
    else .healthy
  { status := status
    secrets := secrets
    total := total
    healthy := healthy
    expiring_soon := expiring_soon
    expired := expired
    stale := stale
    missing := missing
    missing_metadata := missing_metadata
    orphaned := orphaned
    agent := config.agent }

-- --- Catalog resolver (catalog.ts) ---

/-- Config-loader error union from types.ts (`FileNotFound`, `ParseError`,
`ValidationError`, `ReadError`); the loader itself is an external
collaborator. -/
inductive ConfigError
  | FileNotFound (path : String)
  | ParseError (message : String)
  | ValidationError (errors : List String)
  | ReadError (message : String)
deriving DecidableEq

/-- Catalog resolver error union `CatalogError` from types.ts. -/
inductive CatalogError
  | CatalogNotFound (path : String)
  | CatalogLoadError (message : String)
  | SecretNotInCatalog (key : String) (catalogPath : String)
  | MissingSecretsList (message : String)
deriving DecidableEq

/-- Record index read `r[k]`: value of the first binding of key `k`. -/
def recordGet (r : List (String × α)) (k : String) : Option α :=
  (r.find? (fun p => p.1 == k)).map Prod.snd

/-- Record index assignment `r[k] = v`: an existing key keeps its position
and gets the new value; a new key is appended in insertion order. -/
def recordSet (r : List (String × α)) (k : String) (v : α) : List (String × α) :=
  if r.any (fun p => p.1 == k) then
    r.map (fun p => if p.1 == k then (k, v) else p)
  else r ++ [(k, v)]

/-- One field of the object spread `\x7b ...catalogEntry, ...agentOverride \x7d`:
the override field, when present, replaces the catalog field entirely.
(In a schema-validated config an absent optional field is an absent
property, so spread-overwrite is exactly presence-based.) -/
def overlay (override base : Option α) : Option α :=
  match override with
  | some v => some v
  | none => base

/-- Shallow merge of a catalog `SecretMeta` with an agent-local override,
embedding the spread `\x7b ...catalogEntry, ...agentOverride \x7d` in
resolveSecrets (catalog.ts), field by field over the fixed field set. -/
def spreadMerge (catalogEntry agentOverride : SecretMeta) : SecretMeta :=
  { service := overlay agentOverride.service catalogEntry.service
    expires := overlay agentOverride.expires catalogEntry.expires
    rotation_url := overlay agentOverride.rotation_url catalogEntry.rotation_url
    purpose := overlay agentOverride.purpose catalogEntry.purpose
    capabilities := overlay agentOverride.capabilities catalogEntry.capabilities
    created := overlay agentOverride.created catalogEntry.created
    rotates := overlay agentOverride.rotates catalogEntry.rotates
    rate_limit := overlay agentOverride.rate_limit catalogEntry.rate_limit
    model_hint := overlay agentOverride.model_hint catalogEntry.model_hint
    source := overlay agentOverride.source catalogEntry.source
    required := overlay agentOverride.required catalogEntry.required
    tags := overlay agentOverride.tags catalogEntry.tags }

/-- Loop body of `resolveSecrets` (catalog.ts): walk `agentSecrets` in order,
accumulating the `resolved` record; the first key absent from the catalog
aborts the whole resolution. -/
def resolveSecretsAux (agentMeta catalogMeta : List (String × SecretMeta))
    (catalogPath : String) :
    List String → List (String × SecretMeta) →
    Except CatalogError (List (String × SecretMeta))
  | [], resolved => .ok resolved
  | key :: rest, resolved =>
    match recordGet catalogMeta key with
    | none => .error (.SecretNotInCatalog key catalogPath)
    | some catalogEntry =>
      match recordGet agentMeta key with
      | some agentOverride =>
        resolveSecretsAux agentMeta catalogMeta catalogPath rest
          (recordSet resolved key (spreadMerge catalogEntry agentOverride))
      | none =>
        resolveSecretsAux agentMeta catalogMeta catalogPath rest
          (recordSet resolved key catalogEntry)

/-- Embeds `resolveSecrets` from catalog.ts: merge catalog meta with agent
overrides (shallow merge), failing on the first key not in the catalog. -/
def resolveSecrets (agentMeta catalogMeta : List (String × SecretMeta))
    (agentSecrets : List String) (catalogPath : String) :
    Except CatalogError (List (String × SecretMeta)) :=
  resolveSecretsAux agentMeta catalogMeta catalogPath agentSecrets []

/-- Message text produced by `loadCatalog` for a non-not-found loader error:
the source builds it from the error tag and its `message` field
(`ValidationError` has no `message` field, so the template stringifies the
object itself). -/
def configErrorText : ConfigError → String
  | .FileNotFound p => "FileNotFound: " ++ p
  | .ParseError m => "ParseError: " ++ m
  | .ValidationError _ => "ValidationError: [object Object]"
  | .ReadError m => "ReadError: " ++ m

/-- Embeds `loadCatalog` from catalog.ts. The external config loader
(`loadConfig` in config.ts, out of the specified core) is passed in as a
function from path to validated config or typed error; `loadCatalog` maps
its failures onto `CatalogNotFound` / `CatalogLoadError`. -/
def loadCatalog (loadConfig : String → Except ConfigError EnvpktConfig)
    (catalogPath : String) : Except CatalogError EnvpktConfig :=
  match loadConfig catalogPath with
  | .error e =>
    match e with
    | .FileNotFound p => .error (.CatalogNotFound p)
    | _ => .error (.CatalogLoadError (configErrorText e))
  | .ok config => .ok config

/-- Node `resolve(agentConfigDir, rel)` for the relative catalog path against
the agent config directory; the resolver never inspects the string beyond
carrying it, so simple joining suffices. -/
def resolvePath (dir rel : String) : String := dir ++ "/" ++ rel

/-- Resolver output `ResolveResult` from types.ts. -/
structure ResolveResult where
  config : EnvpktConfig
  catalogPath : Option String := none
  merged : List String
  overridden : List String
  warnings : List String
deriving DecidableEq

/-- Embeds `resolveConfig` from catalog.ts: pass through when no catalog
reference; fail with `MissingSecretsList` when a catalog is referenced but
`agent.secrets` is absent or empty (an empty array is truthy in JavaScript,
so the source's `!secrets || secrets.length === 0` is exactly
absent-or-empty); otherwise load the catalog and resolve every requested
secret, all-or-nothing. -/
def resolveConfig (loadConfig : String → Except ConfigError EnvpktConfig)
    (agentConfig : EnvpktConfig) (agentConfigDir : String) :
    Except CatalogError ResolveResult :=
  match agentConfig.catalog with
  | none =>
    .ok { config := agentConfig
          catalogPath := none
          merged := []
          overridden := []
          warnings := [] }
  | some catalogRel =>
    match agentConfig.agent.bind AgentIdentity.secrets with
    | none =>
      .error (.MissingSecretsList
        "Config has \x27catalog\x27 but agent.secrets is missing — declare which catalog secrets this agent needs")
    | some [] =>
      .error (.MissingSecretsList
        "Config has \x27catalog\x27 but agent.secrets is missing — declare which catalog secrets this agent needs")
    | some agentSecrets =>
      let catalogPath := resolvePath agentConfigDir catalogRel
      (loadCatalog loadConfig catalogPath).bind fun catalogConfig =>
        (resolveSecrets agentConfig.meta catalogConfig.meta agentSecrets catalogPath).map
          fun resolvedMeta =>
            let merged := agentSecrets
            let overridden := agentSecrets.filter (fun k => (recordGet agentConfig.meta k).isSome)
            let warnings : List String := []
            let agentIdentity := agentConfig.agent.map (fun a => { a with secrets := none })
            { config :=
                { agentConfig with
                    catalog := none
                    agent := agentIdentity
                    meta := resolvedMeta }
              catalogPath := some catalogPath
              merged := merged
              overridden := overridden
              warnings := warnings }

-- --- Pattern registry / credential scanner (patterns.ts) ---

/-- Confidence union `ConfidenceLevel` from patterns.ts. -/
inductive ConfidenceLevel
  | high
  | medium
  | low
deriving DecidableEq

/-- Rule record `CredentialPattern` from patterns.ts (the `kind` tag is kept
as its literal string). -/
structure CredentialPattern where
  kind : String
  pattern : String
  service : String
  confidence : ConfidenceLevel
  description : String
deriving DecidableEq

/-- Matcher output `MatchResult` from patterns.ts. -/
structure MatchResult where
  envVar : String
  value : String
  service : Option String
  confidence : ConfidenceLevel
  matchedBy : String
deriving DecidableEq

/-- Exclusion set `EXCLUDED_VARS` from patterns.ts: env vars that are never
credentials. The JavaScript `Set` is queried only by `has`, so the member
list suffices. -/
def EXCLUDED_VARS : List String :=
  ["PATH", "HOME", "USER", "SHELL", "TERM", "LANG", "LC_ALL", "LC_CTYPE",
   "DISPLAY", "EDITOR", "VISUAL", "PAGER", "HOSTNAME", "LOGNAME", "MAIL",
   "OLDPWD", "PWD", "SHLVL", "TMPDIR", "TZ", "XDG_CACHE_HOME",
   "XDG_CONFIG_HOME", "XDG_DATA_HOME", "XDG_RUNTIME_DIR", "XDG_SESSION_TYPE",
   "NODE_ENV", "NODE_PATH", "NODE_OPTIONS", "NVM_DIR", "NVM_BIN", "NVM_INC",
   "NVM_CD_FLAGS", "NPM_CONFIG_PREFIX", "GOPATH", "GOROOT", "CARGO_HOME",
   "RUSTUP_HOME", "JAVA_HOME", "ANDROID_HOME", "PYENV_ROOT", "VIRTUAL_ENV",
   "CONDA_PREFIX", "CONDA_DEFAULT_ENV", "MANPATH", "INFOPATH", "LESS",
   "LSCOLORS", "LS_COLORS", "COLORTERM", "TERM_PROGRAM",
   "TERM_PROGRAM_VERSION", "TERM_SESSION_ID", "ITERM_SESSION_ID",
   "ITERM_PROFILE", "SSH_AUTH_SOCK", "SSH_AGENT_PID", "GPG_TTY", "GNUPGHOME",
   "DBUS_SESSION_BUS_ADDRESS", "WAYLAND_DISPLAY", "ZDOTDIR", "ZSH",
   "HISTFILE", "HISTSIZE", "SAVEHIST", "_", "__CF_USER_TEXT_ENCODING",
   "Apple_PubSub_Socket_Render", "COMMAND_MODE", "SECURITYSESSIONID",
   "LaunchInstanceID", "PNPM_HOME", "BUN_INSTALL", "FNM_DIR",
   "FNM_MULTISHELL_PATH", "FNM_VERSION_FILE_STRATEGY", "FNM_LOGLEVEL",
   "FNM_NODE_DIST_MIRROR", "FNM_ARCH", "VOLTA_HOME"]

/-- Curated exact-name table `EXACT_NAME_PATTERNS` from patterns.ts. -/
def EXACT_NAME_PATTERNS : List CredentialPattern :=
  [⟨"name", "OPENAI_API_KEY", "openai", .high, "OpenAI API key"⟩,
   ⟨"name", "OPENAI_ORG_ID", "openai", .high, "OpenAI org ID"⟩,
   ⟨"name", "ANTHROPIC_API_KEY", "anthropic", .high, "Anthropic API key"⟩,
   ⟨"name", "AWS_ACCESS_KEY_ID", "aws", .high, "AWS access key ID"⟩,
   ⟨"name", "AWS_SECRET_ACCESS_KEY", "aws", .high, "AWS secret access key"⟩,
   ⟨"name", "AWS_SESSION_TOKEN", "aws", .high, "AWS session token"⟩,
   ⟨"name", "GOOGLE_APPLICATION_CREDENTIALS", "gcp", .high, "Google Cloud service account path"⟩,
   ⟨"name", "GOOGLE_API_KEY", "google", .high, "Google API key"⟩,
   ⟨"name", "GCP_PROJECT_ID", "gcp", .medium, "GCP project ID"⟩,
   ⟨"name", "AZURE_CLIENT_ID", "azure", .high, "Azure client ID"⟩,
   ⟨"name", "AZURE_CLIENT_SECRET", "azure", .high, "Azure client secret"⟩,
   ⟨"name", "AZURE_TENANT_ID", "azure", .high, "Azure tenant ID"⟩,
   ⟨"name", "STRIPE_SECRET_KEY", "stripe", .high, "Stripe secret key"⟩,
   ⟨"name", "STRIPE_PUBLISHABLE_KEY", "stripe", .high, "Stripe publishable key"⟩,
   ⟨"name", "STRIPE_WEBHOOK_SECRET", "stripe", .high, "Stripe webhook secret"⟩,
   ⟨"name", "GITHUB_TOKEN", "github", .high, "GitHub token"⟩,
   ⟨"name", "GH_TOKEN", "github", .high, "GitHub token (gh CLI)"⟩,
   ⟨"name", "SLACK_BOT_TOKEN", "slack", .high, "Slack bot token"⟩,
   ⟨"name", "SLACK_SIGNING_SECRET", "slack", .high, "Slack signing secret"⟩,
   ⟨"name", "SLACK_WEBHOOK_URL", "slack", .high, "Slack webhook URL"⟩,
   ⟨"name", "TWILIO_ACCOUNT_SID", "twilio", .high, "Twilio account SID"⟩,
   ⟨"name", "TWILIO_AUTH_TOKEN", "twilio", .high, "Twilio auth token"⟩,
   ⟨"name", "SENDGRID_API_KEY", "sendgrid", .high, "SendGrid API key"⟩,
   ⟨"name", "SUPABASE_URL", "supabase", .high, "Supabase project URL"⟩,
   ⟨"name", "SUPABASE_ANON_KEY", "supabase", .high, "Supabase anon key"⟩,
   ⟨"name", "SUPABASE_SERVICE_ROLE_KEY", "supabase", .high, "Supabase service role key"⟩,
   ⟨"name", "DATABASE_URL", "database", .high, "Database URL"⟩,
   ⟨"name", "DATABASE_PASSWORD", "database", .high, "Database password"⟩,
   ⟨"name", "REDIS_URL", "redis", .high, "Redis URL"⟩,
   ⟨"name", "MONGODB_URI", "mongodb", .high, "MongoDB URI"⟩,
   ⟨"name", "DD_API_KEY", "datadog", .high, "Datadog API key"⟩,
   ⟨"name", "DD_APP_KEY", "datadog", .high, "Datadog app key"⟩,
   ⟨"name", "SENTRY_DSN", "sentry", .high, "Sentry DSN"⟩,
   ⟨"name", "SENTRY_AUTH_TOKEN", "sentry", .high, "Sentry auth token"⟩,
   ⟨"name", "VERCEL_TOKEN", "vercel", .high, "Vercel token"⟩,
   ⟨"name", "NETLIFY_AUTH_TOKEN", "netlify", .high, "Netlify auth token"⟩,
   ⟨"name", "CLOUDFLARE_API_TOKEN", "cloudflare", .high, "Cloudflare API token"⟩,
   ⟨"name", "CF_API_TOKEN", "cloudflare", .high, "Cloudflare API token"⟩,
   ⟨"name", "DOCKER_PASSWORD", "docker", .high, "Docker password"⟩,
   ⟨"name", "DOCKER_TOKEN", "docker", .high, "Docker token"⟩,
   ⟨"name", "NPM_TOKEN", "npm", .high, "npm token"⟩,
   ⟨"name", "HF_TOKEN", "huggingface", .high, "Hugging Face token"⟩,
   ⟨"name", "HUGGING_FACE_HUB_TOKEN", "huggingface", .high, "Hugging Face Hub token"⟩,
   ⟨"name", "COHERE_API_KEY", "cohere", .high, "Cohere API key"⟩,
   ⟨"name", "REPLICATE_API_TOKEN", "replicate", .high, "Replicate API token"⟩,
   ⟨"name", "PINECONE_API_KEY", "pinecone", .high, "Pinecone API key"⟩,
   ⟨"name", "LINEAR_API_KEY", "linear", .high, "Linear API key"⟩]

/-- Generic-suffix table `SUFFIX_PATTERNS` from patterns.ts:
(suffix, description) pairs. -/
def SUFFIX_PATTERNS : List (String × String) :=
  [("_API_KEY", "API key"),
   ("_SECRET_KEY", "Secret key"),
   ("_SECRET", "Secret"),
   ("_TOKEN", "Token"),
   ("_PASSWORD", "Password"),
   ("_PASS", "Password"),
   ("_AUTH_TOKEN", "Auth token"),
   ("_ACCESS_TOKEN", "Access token"),
   ("_PRIVATE_KEY", "Private key"),
   ("_SIGNING_KEY", "Signing key"),
   ("_WEBHOOK_SECRET", "Webhook secret"),
   ("_DSN", "DSN"),
   ("_CONNECTION_STRING", "Connection string")]

/-- Value-shape rule `ValuePattern` from patterns.ts; the literal prefix field
is named `pfx` here as its source name is a Lean keyword. -/
structure ValuePattern where
  pfx : String
  service : String
  description : String
deriving DecidableEq

/-- Value-shape table `VALUE_SHAPE_PATTERNS` from patterns.ts, in source
order (more specific prefixes listed before shorter overlapping ones). -/
def VALUE_SHAPE_PATTERNS : List ValuePattern :=
  [⟨"sk-ant-", "anthropic", "Anthropic API key"⟩,
   ⟨"sk-", "openai", "OpenAI API key"⟩,
   ⟨"sk_live_", "stripe", "Stripe live secret key"⟩,
   ⟨"sk_test_", "stripe", "Stripe test secret key"⟩,
   ⟨"pk_live_", "stripe", "Stripe live publishable key"⟩,
   ⟨"pk_test_", "stripe", "Stripe test publishable key"⟩,
   ⟨"whsec_", "stripe", "Stripe webhook secret"⟩,
   ⟨"AKIA", "aws", "AWS access key ID"⟩,
   ⟨"ghp_", "github", "GitHub personal access token"⟩,
   ⟨"gho_", "github", "GitHub OAuth token"⟩,
   ⟨"ghs_", "github", "GitHub server-to-server token"⟩,
   ⟨"ghu_", "github", "GitHub user-to-server token"⟩,
   ⟨"github_pat_", "github", "GitHub fine-grained PAT"⟩,
   ⟨"xoxb-", "slack", "Slack bot token"⟩,
   ⟨"xoxp-", "slack", "Slack user token"⟩,
   ⟨"xoxa-", "slack", "Slack app token"⟩,
   ⟨"xoxs-", "slack", "Slack legacy token"⟩,
   ⟨"SG.", "sendgrid", "SendGrid API key"⟩,
   ⟨"hf_", "huggingface", "Hugging Face token"⟩,
   ⟨"r8_", "replicate", "Replicate API token"⟩,
   ⟨"eyJ", "jwt", "JWT token"⟩,
   ⟨"postgres://", "postgresql", "PostgreSQL connection string"⟩,
   ⟨"postgresql://", "postgresql", "PostgreSQL connection string"⟩,
   ⟨"mysql://", "mysql", "MySQL connection string"⟩,
   ⟨"mongodb://", "mongodb", "MongoDB connection string"⟩,
   ⟨"mongodb+srv://", "mongodb", "MongoDB SRV connection string"⟩,
   ⟨"redis://", "redis", "Redis connection string"⟩,
   ⟨"rediss://", "redis", "Redis TLS connection string"⟩,
   ⟨"amqp://", "rabbitmq", "RabbitMQ connection string"⟩,
   ⟨"amqps://", "rabbitmq", "RabbitMQ TLS connection string"⟩]

/-- Embeds `matchValueShape` from patterns.ts: first value-shape rule whose
literal prefix starts the value. -/
def matchValueShape (value : String) : Option (String × String) :=
  (VALUE_SHAPE_PATTERNS.find? (fun vp => value.startsWith vp.pfx)).map
    (fun vp => (vp.service, vp.description))

/-- Suffix list used by `deriveServiceFromName` in patterns.ts (a superset of
`SUFFIX_PATTERNS`, in its own order). -/
def DERIVE_SUFFIXES : List String :=
  ["_API_KEY", "_SECRET_KEY", "_ACCESS_KEY", "_PRIVATE_KEY", "_SIGNING_KEY",
   "_AUTH_TOKEN", "_ACCESS_TOKEN", "_WEBHOOK_SECRET", "_CONNECTION_STRING",
   "_SECRET", "_TOKEN", "_PASSWORD", "_PASS", "_KEY", "_DSN", "_URL", "_URI"]

/-- Embeds `deriveServiceFromName` from patterns.ts: strip the first matching
suffix (the loop breaks after one strip), lowercase, and hyphenate. All
involved strings are ASCII env-var names, for which JavaScript
`toLowerCase` / `replace` agree with `String.toLower` / `String.replace`. -/
def deriveServiceFromName (name : String) : String :=
  let stripped :=
    match DERIVE_SUFFIXES.find? (fun suf => name.endsWith suf) with
    | some suf => name.dropRight suf.length
    | none => name
  (stripped.toLower).replace "_" "-"

/-- Embeds `matchEnvVar` from patterns.ts: exclusion check, then the three
rule layers in order (exact name, value shape, generic suffix), first match
winning. -/
def matchEnvVar (name value : String) : Option MatchResult :=
  if EXCLUDED_VARS.contains name then none
  else
    match EXACT_NAME_PATTERNS.find? (fun p => name == p.pattern) with
    | some p =>
      some { envVar := name
             value := value
             service := some p.service
             confidence := p.confidence
             matchedBy := "exact:" ++ p.pattern }
    | none =>
      match matchValueShape value with
      | some vm =>
        some { envVar := name
               value := value
               service := some vm.1
               confidence := .high
               matchedBy := "value:" ++ vm.2 }
      | none =>
        match SUFFIX_PATTERNS.find? (fun sp => name.endsWith sp.1) with
        | some sp =>
          some { envVar := name
                 value := value
                 service := some (deriveServiceFromName name)
                 confidence := .medium
                 matchedBy := "suffix:" ++ sp.1 }
        | none => none

/-- Numeric rank `confidenceOrder` from scanEnv (patterns.ts):
high 0, medium 1, low 2. -/
def confidenceOrder : ConfidenceLevel → Nat
  | .high => 0
  | .medium => 1
  | .low => 2

/-- Non-strict version of the scanEnv sort comparator: rank strictly smaller,
or equal rank and variable name not later. JavaScript `localeCompare` on
ASCII env-var names is modelled by lexicographic string order. -/
def scanLE (a b : MatchResult) : Prop :=
  confidenceOrder a.confidence < confidenceOrder b.confidence ∨
    (confidenceOrder a.confidence = confidenceOrder b.confidence ∧ a.envVar ≤ b.envVar)

instance : DecidableRel scanLE := fun a b => by
  unfold scanLE
  infer_instance

instance : IsTotal MatchResult scanLE where
  total a b := by
    rcases Nat.lt_trichotomy (confidenceOrder a.confidence) (confidenceOrder b.confidence)
      with h | h | h
    · exact Or.inl (Or.inl h)
    · rcases le_total a.envVar b.envVar with h2 | h2
      · exact Or.inl (Or.inr ⟨h, h2⟩)
      · exact Or.inr (Or.inr ⟨h.symm, h2⟩)
    · exact Or.inr (Or.inl h)

instance : IsTrans MatchResult scanLE where
  trans a b c hab hbc := by
    rcases hab with h1 | ⟨h1, h1n⟩ <;> rcases hbc with h2 | ⟨h2, h2n⟩
    · exact Or.inl (h1.trans h2)
    · exact Or.inl (h2 ▸ h1)
    · exact Or.inl (h1 ▸ h2)
    · exact Or.inr ⟨h1.trans h2, h1n.trans h2n⟩

/-- Embeds `scanEnv` from patterns.ts: iterate the environment snapshot in
order, skip absent or empty values, match each entry, and sort the matches
by the comparator (confidence rank, then name). The engine's comparator sort
is modelled by insertion sort over `scanLE`; on snapshots with distinct
variable names (every JavaScript environment object) the comparator has no
ties, so any comparator-correct sort produces this list. -/
def scanEnv (env : List (String × Option String)) : List MatchResult :=
  let results := env.filterMap (fun kv =>
    match kv.2 with
    | none => none
    | some v => if v = "" then none else matchEnvVar kv.1 v)
  List.insertionSort scanLE results

-- --- Independently computed per-secret conditions, named for the statements ---

/-- Days remaining before expiry: `daysRemaining` in classifySecret. -/
def secretDaysRemaining (meta : SecretMeta) (today : Int) : Option Int :=
  (meta.expires.bind parseDate).map (fun exp => daysBetween today exp)

/-- Days since creation: `daysSinceCreated` in classifySecret. -/
def secretDaysSinceCreated (meta : SecretMeta) (today : Int) : Option Int :=
  (meta.created.bind parseDate).map (fun c => daysBetween c today)

/-- Condition `isExpired` from classifySecret. -/
def secretIsExpired (meta : SecretMeta) (today : Int) : Bool :=
  optionFold (secretDaysRemaining meta today) false (fun d => decide (d < 0))

/-- Condition `isExpiringSoon` from classifySecret. -/
def secretIsExpiringSoon (meta : SecretMeta) (today : Int) : Bool :=
  optionFold (secretDaysRemaining meta today) false
    (fun d => decide (d ≥ 0) && decide (d ≤ WARN_BEFORE_DAYS))

/-- Condition `isStale` from classifySecret. -/
def secretIsStale (meta : SecretMeta) (staleWarningDays today : Int) : Bool :=
  optionFold (secretDaysSinceCreated meta today) false (fun d => decide (d > staleWarningDays))

/-- Condition `isMissing` from classifySecret. -/
def secretIsMissing (key : String) (fnoxKeys : List String) : Bool :=
  !fnoxKeys.isEmpty && !fnoxKeys.contains key

/-- Condition `isMissingMetadata` from classifySecret. -/
def secretIsMissingMetadata (meta : SecretMeta)
    (requireExpiration requireService : Bool) : Bool :=
  (requireExpiration && (meta.expires.bind parseDate).isNone) ||
    (requireService && meta.service.isNone)

/-- Priority selection of the single status value as the spec words it:
expired beats missing beats missing_metadata beats expiring_soon beats stale
beats healthy. -/
def priorityStatus (isExpired isMissing isMissingMetadata isExpiringSoon isStale : Bool) :
    SecretStatus :=
  if isExpired then .expired
  else if isMissing then .missing
  else if isMissingMetadata then .missing_metadata
  else if isExpiringSoon then .expiring_soon
  else if isStale then .stale
  else .healthy

/-- Aggregate status as derived from the five per-status counts alone
(critical when expired or missing is positive, degraded when expiring_soon,
stale or missing_metadata is positive, healthy otherwise). -/
def statusFromCounts (expired missing expiring_soon stale missing_metadata : Nat) :
    HealthStatus :=
  if 0 < expired ∨ 0 < missing then .critical
  else if 0 < expiring_soon ∨ 0 < stale ∨ 0 < missing_metadata then .degraded
  else .healthy

/-- The status field produced by classifySecret is exactly the priority
selection over the five independently computed conditions. -/
theorem classifySecret_status_eq (key : String) (meta : SecretMeta)
    (fnoxKeys : List String) (staleWarningDays : Int)
    (requireExpiration requireService : Bool) (today : Int) :
    (classifySecret key meta fnoxKeys staleWarningDays requireExpiration
        requireService today).status =
      priorityStatus (secretIsExpired meta today) (secretIsMissing key fnoxKeys)
        (secretIsMissingMetadata meta requireExpiration requireService)
        (secretIsExpiringSoon meta today)
        (secretIsStale meta staleWarningDays today) := rfl

/-- C1: the per-secret status is selected among the independently computed
conditions by the strict priority expired > missing > missing_metadata >
expiring_soon > stale > healthy; in particular a parsed expires date with
daysRemaining < 0 forces status "expired" regardless of every other
condition. -/
theorem classifySecret_priority (key : String) (meta : SecretMeta)
    (fnoxKeys : List String) (staleWarningDays : Int)
    (requireExpiration requireService : Bool) (today : Int) :
    (classifySecret key meta fnoxKeys staleWarningDays requireExpiration
        requireService today).status =
      priorityStatus (secretIsExpired meta today) (secretIsMissing key fnoxKeys)
        (secretIsMissingMetadata meta requireExpiration requireService)
        (secretIsExpiringSoon meta today)
        (secretIsStale meta staleWarningDays today) ∧
    (∀ d : Int, secretDaysRemaining meta today = some d → d < 0 →
      (classifySecret key meta fnoxKeys staleWarningDays requireExpiration
          requireService today).status = .expired) := by
  refine ⟨classifySecret_status_eq .., ?_⟩
  intro d hd hlt
  rw [classifySecret_status_eq]
  have hex : secretIsExpired meta today = true := by
    simp [secretIsExpired, hd, optionFold, hlt]
  simp [priorityStatus, hex]

/-- Witness for C1 at a concrete secret for which the missing, stale and
missing_metadata conditions all hold as well, yet the expired status wins. -/
theorem classifySecret_priority_witness :
    secretIsMissing "K" ["OTHER"] = true ∧
    secretIsStale { expires := some "2025-01-01", created := some "2020-01-01" } 90
      (20254 * MS_PER_DAY) = true ∧
    secretIsMissingMetadata { expires := some "2025-01-01", created := some "2020-01-01" }
      false true = true ∧
    (classifySecret "K" { expires := some "2025-01-01", created := some "2020-01-01" }
        ["OTHER"] 90 false true (20254 * MS_PER_DAY)).status = .expired :=
  ⟨by decide, by decide, by decide,
    (classifySecret_priority "K"
        { expires := some "2025-01-01", created := some "2020-01-01" }
        ["OTHER"] 90 false true (20254 * MS_PER_DAY)).2 (-165) (by decide) (by decide)⟩

/-- The status field of the audit result is exactly the count-derived status. -/
theorem computeAudit_status_eq (config : EnvpktConfig) (fnoxKeys : Option (List String))
    (today : Option Int) (ambientNow : Int) :
    (computeAudit config fnoxKeys today ambientNow).status =
      statusFromCounts (computeAudit config fnoxKeys today ambientNow).expired
        (computeAudit config fnoxKeys today ambientNow).missing
        (computeAudit config fnoxKeys today ambientNow).expiring_soon
        (computeAudit config fnoxKeys today ambientNow).stale
        (computeAudit config fnoxKeys today ambientNow).missing_metadata := rfl

/-- Characterisation of the count-derived aggregate status. -/
theorem statusFromCounts_spec (e m es st mmd : Nat) :
    (statusFromCounts e m es st mmd = .critical ↔ 0 < e ∨ 0 < m) ∧
    (statusFromCounts e m es st mmd = .degraded ↔
      ¬(0 < e ∨ 0 < m) ∧ (0 < es ∨ 0 < st ∨ 0 < mmd)) ∧
    (statusFromCounts e m es st mmd = .healthy ↔
      ¬(0 < e ∨ 0 < m) ∧ ¬(0 < es ∨ 0 < st ∨ 0 < mmd)) := by
  unfold statusFromCounts
  split_ifs with h1 h2 <;> simp_all

/-- C2: the aggregate AuditResult status is critical iff the expired count or
the missing count is positive; degraded iff neither is positive and at least
one of expiring_soon, stale, missing_metadata is positive; healthy otherwise. -/
theorem computeAudit_aggregate_status (config : EnvpktConfig)
    (fnoxKeys : Option (List String)) (today : Option Int) (ambientNow : Int) :
    ((computeAudit config fnoxKeys today ambientNow).status = .critical ↔
      0 < (computeAudit config fnoxKeys today ambientNow).expired ∨
        0 < (computeAudit config fnoxKeys today ambientNow).missing) ∧
    ((computeAudit config fnoxKeys today ambientNow).status = .degraded ↔
      ¬(0 < (computeAudit config fnoxKeys today ambientNow).expired ∨
          0 < (computeAudit config fnoxKeys today ambientNow).missing) ∧
        (0 < (computeAudit config fnoxKeys today ambientNow).expiring_soon ∨
          0 < (computeAudit config fnoxKeys today ambientNow).stale ∨
          0 < (computeAudit config fnoxKeys today ambientNow).missing_metadata)) ∧
    ((computeAudit config fnoxKeys today ambientNow).status = .healthy ↔
      ¬(0 < (computeAudit config fnoxKeys today ambientNow).expired ∨
          0 < (computeAudit config fnoxKeys today ambientNow).missing) ∧
        ¬(0 < (computeAudit config fnoxKeys today ambientNow).expiring_soon ∨
          0 < (computeAudit config fnoxKeys today ambientNow).stale ∨
          0 < (computeAudit config fnoxKeys today ambientNow).missing_metadata)) := by
  rw [computeAudit_status_eq]
  exact statusFromCounts_spec ..

/-- C3: with a parseable expires date and no higher-priority condition,
expiry at exactly as-of + 30 days yields status expiring_soon while expiry at
as-of + 31 days does not; both facts hold for every value of
stale_warning_days, making the 30-day window independent of the lifecycle
policy. -/
theorem classifySecret_warn_window (key : String) (meta : SecretMeta)
    (fnoxKeys : List String) (requireExpiration requireService : Bool)
    (today e : Int)
    (hparse : meta.expires.bind parseDate = some e)
    (hmiss : secretIsMissing key fnoxKeys = false)
    (hmeta : secretIsMissingMetadata meta requireExpiration requireService = false) :
    (e = today + 30 * MS_PER_DAY →
      ∀ staleWarningDays : Int,
        (classifySecret key meta fnoxKeys staleWarningDays requireExpiration
            requireService today).status = .expiring_soon) ∧
    (e = today + 31 * MS_PER_DAY →
      ∀ staleWarningDays : Int,
        (classifySecret key meta fnoxKeys staleWarningDays requireExpiration
            requireService today).status ≠ .expiring_soon) := by
  constructor
  · intro he staleWarningDays
    rw [classifySecret_status_eq]
    have hdr : secretDaysRemaining meta today = some 30 := by
      have h30 : daysBetween today (today + 30 * MS_PER_DAY) = 30 := by
        unfold daysBetween
        rw [add_sub_cancel_left]
        decide
      simp [secretDaysRemaining, hparse, he, h30]
    have hex : secretIsExpired meta today = false := by
      simp [secretIsExpired, hdr, optionFold]
    have hes : secretIsExpiringSoon meta today = true := by
      simp [secretIsExpiringSoon, hdr, optionFold, WARN_BEFORE_DAYS]
    simp [priorityStatus, hex, hmiss, hmeta, hes]
  · intro he staleWarningDays
    rw [classifySecret_status_eq]
    have hdr : secretDaysRemaining meta today = some 31 := by
      have h31 : daysBetween today (today + 31 * MS_PER_DAY) = 31 := by
        unfold daysBetween
        rw [add_sub_cancel_left]
        decide
      simp [secretDaysRemaining, hparse, he, h31]
    have hex : secretIsExpired meta today = false := by
      simp [secretIsExpired, hdr, optionFold]
    have hes : secretIsExpiringSoon meta today = false := by
      simp [secretIsExpiringSoon, hdr, optionFold, WARN_BEFORE_DAYS]
    cases hst : secretIsStale meta staleWarningDays today <;>
      simp [priorityStatus, hex, hmiss, hmeta, hes, hst]

/-- Witness for C3 at a concrete secret expiring exactly 30 days after the
as-of date (2025-06-15 to 2025-07-15), with the stale threshold at its
default of 90 days. -/
theorem classifySecret_warn_window_witness :
    (classifySecret "K" { expires := some "2025-07-15" } [] 90 false false
        (20254 * MS_PER_DAY)).status = .expiring_soon :=
  (classifySecret_warn_window "K" { expires := some "2025-07-15" } [] false false
      (20254 * MS_PER_DAY) (20284 * MS_PER_DAY)
      (by decide) (by decide) (by decide)).1 (by decide) 90

/-- Counterexample to C4: with meta keys A and B and known-key set containing
only A, the code's orphaned count is 1 (meta keys absent from the known set),
while the claim's reading — known-set keys absent from meta — would give 0. -/
theorem computeAudit_orphaned_cex :
    (computeAudit { meta := [("A", {}), ("B", {})] } (some ["A"]) (some 0) 0).orphaned = 1 ∧
    ((["A"] : List String).filter
      (fun k => !(([("A", ({} : SecretMeta)), ("B", {})].map Prod.fst).contains k))).length = 0 := by
  constructor
  · decide
  · decide

/-- C4 as amended: the orphaned count equals the number of keys present in
the configuration's meta mapping but absent from the supplied known-key set,
computed only when that set is non-empty (otherwise, or with no set at all,
it is 0), and the aggregate status is derived from the five per-status counts
alone, so orphaned never affects it. -/
theorem computeAudit_orphaned (config : EnvpktConfig) (keys : List String)
    (today : Option Int) (ambientNow : Int) :
    (keys ≠ [] →
      (computeAudit config (some keys) today ambientNow).orphaned =
        ((config.meta.map Prod.fst).filter (fun k => !keys.contains k)).length) ∧
    (keys = [] → (computeAudit config (some keys) today ambientNow).orphaned = 0) ∧
    (computeAudit config none today ambientNow).orphaned = 0 ∧
    (computeAudit config (some keys) today ambientNow).status =
      statusFromCounts (computeAudit config (some keys) today ambientNow).expired
        (computeAudit config (some keys) today ambientNow).missing
        (computeAudit config (some keys) today ambientNow).expiring_soon
        (computeAudit config (some keys) today ambientNow).stale
        (computeAudit config (some keys) today ambientNow).missing_metadata := by
  refine ⟨?_, ?_, rfl, computeAudit_status_eq ..⟩
  · intro h
    match keys, h with
    | k :: ks, _ => rfl
  · intro h
    subst h
    rfl

/-- Witness for C4 (amended) at a two-secret configuration with a non-empty
known-key set missing one of the meta keys. -/
theorem computeAudit_orphaned_witness :
    (computeAudit { meta := [("IN_FNOX", {}), ("NOT_IN_FNOX", {})] }
      (some ["IN_FNOX", "EXTRA_FNOX_KEY"]) (some 0) 0).orphaned =
      (([("IN_FNOX", ({} : SecretMeta)), ("NOT_IN_FNOX", {})].map Prod.fst).filter
        (fun k => !(["IN_FNOX", "EXTRA_FNOX_KEY"] : List String).contains k)).length :=
  (computeAudit_orphaned { meta := [("IN_FNOX", {}), ("NOT_IN_FNOX", {})] }
      ["IN_FNOX", "EXTRA_FNOX_KEY"] (some 0) 0).1 (by decide)

/-- Counterexample to C5: with the optional as-of date omitted, computeAudit
falls back to a wall-clock read inside the core (`today ?? new Date()`), so
two calls on identical configuration, known-key set and (absent) as-of date
observe different ambient clock values and disagree: at ambient 1970-01-01
the single secret is healthy, at ambient 2025-06-15 it is expired. -/
theorem computeAudit_wallclock_cex :
    (computeAudit { meta := [("K", { expires := some "2025-01-01" })] } none none 0).status ≠
      (computeAudit { meta := [("K", { expires := some "2025-01-01" })] } none none
        (20254 * MS_PER_DAY)).status := by
  decide

/-- C5 as amended: whenever the as-of date is actually supplied, computeAudit
is a pure function of its configuration, known-key-set and as-of-date inputs:
the ambient clock value is never consulted, so any two calls on identical
explicit inputs return identical results. -/
theorem computeAudit_pure (config : EnvpktConfig) (fnoxKeys : Option (List String))
    (asOf : Int) (ambient1 ambient2 : Int) :
    computeAudit config fnoxKeys (some asOf) ambient1 =
      computeAudit config fnoxKeys (some asOf) ambient2 := rfl

/-- C7: catalog override application is a shallow field-by-field replacement:
every field the agent-local override defines is carried into the resolved
SecretMeta in full, discarding the catalog value of that field. -/
theorem spreadMerge_override_wins (c o : SecretMeta) :
    (∀ v, o.service = some v → (spreadMerge c o).service = some v) ∧
    (∀ v, o.expires = some v → (spreadMerge c o).expires = some v) ∧
    (∀ v, o.rotation_url = some v → (spreadMerge c o).rotation_url = some v) ∧
    (∀ v, o.purpose = some v → (spreadMerge c o).purpose = some v) ∧
    (∀ v, o.capabilities = some v → (spreadMerge c o).capabilities = some v) ∧
    (∀ v, o.created = some v → (spreadMerge c o).created = some v) ∧
    (∀ v, o.rotates = some v → (spreadMerge c o).rotates = some v) ∧
    (∀ v, o.rate_limit = some v → (spreadMerge c o).rate_limit = some v) ∧
    (∀ v, o.model_hint = some v → (spreadMerge c o).model_hint = some v) ∧
    (∀ v, o.source = some v → (spreadMerge c o).source = some v) ∧
    (∀ v, o.required = some v → (spreadMerge c o).required = some v) ∧
    (∀ v, o.tags = some v → (spreadMerge c o).tags = some v) := by
  refine ⟨?_, ?_, ?_, ?_, ?_, ?_, ?_, ?_, ?_, ?_, ?_, ?_⟩ <;>
    intro v h <;> simp [spreadMerge, overlay, h]

/-- Witness for C7: the spec's capabilities example — a catalog granting
SELECT and INSERT overridden by an agent declaring only SELECT resolves to
exactly SELECT, never the union. -/
theorem spreadMerge_override_wins_witness :
    (spreadMerge { capabilities := some ["SELECT", "INSERT"], service := some "postgres" }
      { capabilities := some ["SELECT"] }).capabilities = some ["SELECT"] ∧
    (spreadMerge { capabilities := some ["SELECT", "INSERT"], service := some "postgres" }
      { capabilities := some ["SELECT"] }).capabilities ≠ some ["SELECT", "INSERT"] :=
  ⟨(spreadMerge_override_wins
      { capabilities := some ["SELECT", "INSERT"], service := some "postgres" }
      { capabilities := some ["SELECT"] }).2.2.2.2.1 ["SELECT"] rfl,
    by decide⟩

/-- When some requested key is absent from the catalog, the resolveSecrets
loop fails with SecretNotInCatalog naming the first such key, whatever has
been accumulated so far. -/
theorem resolveSecretsAux_absent (agentMeta catalogMeta : List (String × SecretMeta))
    (path : String) :
    ∀ (secrets : List String) (acc : List (String × SecretMeta)),
      (∃ k ∈ secrets, recordGet catalogMeta k = none) →
      ∃ k, k ∈ secrets ∧ recordGet catalogMeta k = none ∧
        resolveSecretsAux agentMeta catalogMeta path secrets acc =
          .error (.SecretNotInCatalog k path) := by
  intro secrets
  induction secrets with
  | nil =>
    intro acc h
    simp at h
  | cons key rest ih =>
    intro acc h
    cases hg : recordGet catalogMeta key with
    | none =>
      exact ⟨key, List.mem_cons_self .., hg, by simp [resolveSecretsAux, hg]⟩
    | some entry =>
      have hrest : ∃ k ∈ rest, recordGet catalogMeta k = none := by
        obtain ⟨k, hk, hkn⟩ := h
        rcases List.mem_cons.mp hk with rfl | hk2
        · rw [hg] at hkn
          exact absurd hkn (by simp)
        · exact ⟨k, hk2, hkn⟩
      cases ha : recordGet agentMeta key with
      | some ov =>
        obtain ⟨k, hk, hkn, heq⟩ :=
          ih (recordSet acc key (spreadMerge entry ov)) hrest
        exact ⟨k, List.mem_cons_of_mem _ hk, hkn, by
          simp [resolveSecretsAux, hg, ha, heq]⟩
      | none =>
        obtain ⟨k, hk, hkn, heq⟩ := ih (recordSet acc key entry) hrest
        exact ⟨k, List.mem_cons_of_mem _ hk, hkn, by
          simp [resolveSecretsAux, hg, ha, heq]⟩

/-- C6: with a catalog reference, a declared secrets list and a successfully
loaded catalog, any requested key absent from the catalog's meta makes
resolveConfig fail with SecretNotInCatalog naming an absent requested key
(the first one), and no ResolveResult is produced — resolution is
all-or-nothing. -/
theorem resolveConfig_secretNotInCatalog
    (loadConfigFn : String → Except ConfigError EnvpktConfig)
    (agentConfig : EnvpktConfig) (dir catalogRel : String)
    (secrets : List String) (catalogConfig : EnvpktConfig)
    (hcat : agentConfig.catalog = some catalogRel)
    (hsec : agentConfig.agent.bind AgentIdentity.secrets = some secrets)
    (hload : loadCatalog loadConfigFn (resolvePath dir catalogRel) = .ok catalogConfig)
    (habsent : ∃ k ∈ secrets, recordGet catalogConfig.meta k = none) :
    ∃ k, k ∈ secrets ∧ recordGet catalogConfig.meta k = none ∧
      resolveConfig loadConfigFn agentConfig dir =
        .error (.SecretNotInCatalog k (resolvePath dir catalogRel)) := by
  obtain ⟨k0, hk0, hkn0, heq⟩ :=
    resolveSecretsAux_absent agentConfig.meta catalogConfig.meta
      (resolvePath dir catalogRel) secrets [] habsent
  refine ⟨k0, hk0, hkn0, ?_⟩
  match secrets, hk0 with
  | s :: ss, _ =>
    unfold resolveConfig
    rw [hcat, hsec]
    simp only [resolveSecrets] at heq ⊢
    rw [hload]
    simp [Except.bind, heq, Except.map]

/-- Config loader stub returning a one-entry catalog, for the C6 witness. -/
def loaderC6 : String → Except ConfigError EnvpktConfig :=
  fun _ => .ok { meta := [("KEY", { service := some "svc" })] }

/-- Agent configuration requesting a key the catalog does not define, for the
C6 witness. -/
def cfgC6 : EnvpktConfig :=
  { catalog := some "catalog.toml"
    agent := some { name := "test-agent", secrets := some ["NONEXISTENT"] }
    meta := [] }

/-- Witness for C6: resolving an agent that requests NONEXISTENT against a
catalog defining only KEY fails with SecretNotInCatalog naming NONEXISTENT. -/
theorem resolveConfig_secretNotInCatalog_witness :
    resolveConfig loaderC6 cfgC6 "/agents" =
      .error (.SecretNotInCatalog "NONEXISTENT" (resolvePath "/agents" "catalog.toml")) := by
  obtain ⟨k, hk, hkn, heq⟩ :=
    resolveConfig_secretNotInCatalog loaderC6 cfgC6 "/agents" "catalog.toml"
      ["NONEXISTENT"] { meta := [("KEY", { service := some "svc" })] }
      rfl rfl rfl ⟨"NONEXISTENT", by decide, by decide⟩
  obtain rfl : k = "NONEXISTENT" := by simpa using hk
  exact heq

/-- Key-set effect of a record index assignment: the updated record's key set
is the old key set plus the assigned key. -/
theorem recordSet_keys_mem (r : List (String × α)) (k : String) (v : α) (x : String) :
    x ∈ (recordSet r k v).map Prod.fst ↔ x ∈ r.map Prod.fst ∨ x = k := by
  unfold recordSet
  split
  case isTrue h =>
    have hkeys : (r.map fun p => if p.1 == k then (k, v) else p).map Prod.fst =
        r.map Prod.fst := by
      rw [List.map_map]
      apply List.map_congr_left
      intro p _
      by_cases hp : p.1 = k
      · simp [hp]
      · simp [hp]
    rw [hkeys]
    constructor
    · exact Or.inl
    · rintro (hx | rfl)
      · exact hx
      · obtain ⟨p, hp, hpk⟩ := List.any_eq_true.mp h
        have hpe : p.1 = x := by simpa using hpk
        exact List.mem_map.mpr ⟨p, hp, hpe⟩
  case isFalse h =>
    simp [List.map_append]

/-- Key set of a successful resolveSecrets loop: exactly the accumulator's
keys plus the requested keys. -/
theorem resolveSecretsAux_ok_keys (agentMeta catalogMeta : List (String × SecretMeta))
    (path : String) :
    ∀ (secrets : List String) (acc resolved : List (String × SecretMeta)),
      resolveSecretsAux agentMeta catalogMeta path secrets acc = .ok resolved →
      ∀ x, x ∈ resolved.map Prod.fst ↔ x ∈ acc.map Prod.fst ∨ x ∈ secrets := by
  intro secrets
  induction secrets with
  | nil =>
    intro acc resolved h x
    simp only [resolveSecretsAux, Except.ok.injEq] at h
    subst h
    simp
  | cons key rest ih =>
    intro acc resolved h x
    simp only [resolveSecretsAux] at h
    cases hg : recordGet catalogMeta key with
    | none =>
      rw [hg] at h
      cases h
    | some entry =>
      rw [hg] at h
      cases ha : recordGet agentMeta key with
      | some ov =>
        rw [ha] at h
        have := ih (recordSet acc key (spreadMerge entry ov)) resolved h x
        rw [this, recordSet_keys_mem]
        simp [List.mem_cons]
        tauto
      | none =>
        rw [ha] at h
        have := ih (recordSet acc key entry) resolved h x
        rw [this, recordSet_keys_mem]
        simp [List.mem_cons]
        tauto

/-- C10: whenever resolveConfig succeeds on a configuration with a catalog
reference, the key set of the resolved meta mapping is exactly the set of
keys listed in agent.secrets; agent-local meta entries for unlisted keys are
absent from the resolved configuration. -/
theorem resolveConfig_meta_keys
    (loadConfigFn : String → Except ConfigError EnvpktConfig)
    (agentConfig : EnvpktConfig) (dir catalogRel : String)
    (secrets : List String) (res : ResolveResult)
    (hcat : agentConfig.catalog = some catalogRel)
    (hsec : agentConfig.agent.bind AgentIdentity.secrets = some secrets)
    (hok : resolveConfig loadConfigFn agentConfig dir = .ok res) :
    ∀ k, k ∈ res.config.meta.map Prod.fst ↔ k ∈ secrets := by
  unfold resolveConfig at hok
  rw [hcat, hsec] at hok
  match secrets, hok with
  | [], hok => simp at hok
  | s :: ss, hok =>
    dsimp only at hok
    cases hload : loadCatalog loadConfigFn (resolvePath dir catalogRel) with
    | error e =>
      rw [hload] at hok
      simp [Except.bind] at hok
    | ok catalogConfig =>
      rw [hload] at hok
      simp only [Except.bind] at hok
      cases hrs : resolveSecrets agentConfig.meta catalogConfig.meta (s :: ss)
          (resolvePath dir catalogRel) with
      | error e =>
        rw [hrs] at hok
        simp [Except.map] at hok
      | ok resolvedMeta =>
        rw [hrs] at hok
        simp only [Except.map, Except.ok.injEq] at hok
        subst hok
        intro k
        have := resolveSecretsAux_ok_keys agentConfig.meta catalogConfig.meta
          (resolvePath dir catalogRel) (s :: ss) [] resolvedMeta hrs k
        simpa using this

/-- Config loader stub returning a catalog defining only DB, for the C10
witness. -/
def loaderC10 : String → Except ConfigError EnvpktConfig :=
  fun _ => .ok { meta := [("DB", { service := some "postgres",
                                   capabilities := some ["SELECT", "INSERT"] })] }

/-- Agent configuration requesting only DB while its local meta also carries
an unlisted LOCAL entry, for the C10 witness. -/
def cfgC10 : EnvpktConfig :=
  { catalog := some "catalog.toml"
    agent := some { name := "read-only-agent", secrets := some ["DB"] }
    meta := [("DB", { capabilities := some ["SELECT"] }),
             ("LOCAL", { service := some "local" })] }

/-- The concrete ResolveResult produced for the C10 witness configuration. -/
def resC10 : ResolveResult :=
  { config :=
      { version := 1
        agent := some { name := "read-only-agent" }
        meta := [("DB", { service := some "postgres",
                          capabilities := some ["SELECT"] })]
        lifecycle := none
        callbacks := none
        catalog := none }
    catalogPath := some (resolvePath "/agents" "catalog.toml")
    merged := ["DB"]
    overridden := ["DB"]
    warnings := [] }

/-- Witness for C10: the resolved meta keeps the requested DB key and drops
the unlisted agent-local LOCAL entry. -/
theorem resolveConfig_meta_keys_witness :
    ("DB" ∈ resC10.config.meta.map Prod.fst ↔ "DB" ∈ (["DB"] : List String)) ∧
    ("LOCAL" ∈ resC10.config.meta.map Prod.fst ↔ "LOCAL" ∈ (["DB"] : List String)) :=
  ⟨resolveConfig_meta_keys loaderC10 cfgC10 "/agents" "catalog.toml" ["DB"] resC10
      rfl rfl rfl "DB",
    resolveConfig_meta_keys loaderC10 cfgC10 "/agents" "catalog.toml" ["DB"] resC10
      rfl rfl rfl "LOCAL"⟩

/-- Counterexample to C8: GCP_PROJECT_ID is in the curated exact-name table,
yet the match it produces (for the non-empty value "x") carries confidence
medium, not high — the table assigns per-entry confidences and one entry is
not high. -/
theorem matchEnvVar_gcp_cex :
    ("GCP_PROJECT_ID" ∈ EXACT_NAME_PATTERNS.map CredentialPattern.pattern) ∧
    (matchEnvVar "GCP_PROJECT_ID" "x").map MatchResult.confidence =
      some ConfidenceLevel.medium ∧
    (matchEnvVar "GCP_PROJECT_ID" "x").map MatchResult.confidence ≠
      some ConfidenceLevel.high :=
  ⟨by decide, by decide, by decide⟩

/-- In a list of patterns with pairwise-distinct names, searching for a
member's name finds that member. -/
theorem find?_pattern_self (p : CredentialPattern) :
    ∀ (l : List CredentialPattern), (l.map CredentialPattern.pattern).Nodup →
      p ∈ l → l.find? (fun q => p.pattern == q.pattern) = some p := by
  intro l
  induction l with
  | nil =>
    intro _ hm
    simp at hm
  | cons q rest ih =>
    intro hnd hm
    rcases List.mem_cons.mp hm with rfl | hm2
    · simp [List.find?]
    · have hne : p.pattern ≠ q.pattern := by
        intro he
        have hnotin : q.pattern ∉ rest.map CredentialPattern.pattern :=
          (List.nodup_cons.mp (by simpa using hnd)).1
        exact hnotin (he ▸ List.mem_map.mpr ⟨p, hm2, rfl⟩)
      have hrest : (rest.map CredentialPattern.pattern).Nodup :=
        (List.nodup_cons.mp (by simpa using hnd)).2
      simp only [List.find?]
      rw [show (p.pattern == q.pattern) = false from beq_eq_false_iff_ne.mpr hne]
      exact ih hrest hm2

/-- C8 as amended: every variable name in the curated exact-name table
matches through the exact-name layer (for any value), carrying the table
entry's fixed service label and the table entry's own confidence — which is
high for every entry except GCP_PROJECT_ID, whose confidence is medium. -/
theorem matchEnvVar_exact_layer (p : CredentialPattern)
    (hp : p ∈ EXACT_NAME_PATTERNS) (value : String) :
    matchEnvVar p.pattern value =
      some { envVar := p.pattern, value := value, service := some p.service,
             confidence := p.confidence, matchedBy := "exact:" ++ p.pattern } ∧
    (p.confidence = .high ∨ p.pattern = "GCP_PROJECT_ID") := by
  have hnd : (EXACT_NAME_PATTERNS.map CredentialPattern.pattern).Nodup := by decide
  have hfind := find?_pattern_self p EXACT_NAME_PATTERNS hnd hp
  have hexcl : p.pattern ∉ EXCLUDED_VARS := by
    have hall : EXACT_NAME_PATTERNS.all
        (fun q => !(EXCLUDED_VARS.contains q.pattern)) = true := by decide
    have h2 := List.all_eq_true.mp hall p hp
    simpa using h2
  refine ⟨?_, ?_⟩
  · unfold matchEnvVar
    simp [hexcl, hfind]
  · have hall2 : EXACT_NAME_PATTERNS.all
        (fun q => (q.confidence == ConfidenceLevel.high) ||
          (q.pattern == "GCP_PROJECT_ID")) = true := by decide
    have := List.all_eq_true.mp hall2 p hp
    simpa using this

/-- Witness for C8 (amended) at the spec's own example: OPENAI_API_KEY with a
value that would also match the value-shape layer still matches through the
exact-name layer with service openai and confidence high. -/
theorem matchEnvVar_exact_layer_witness :
    matchEnvVar "OPENAI_API_KEY" "sk-test123" =
      some { envVar := "OPENAI_API_KEY", value := "sk-test123",
             service := some "openai", confidence := ConfidenceLevel.high,
             matchedBy := "exact:" ++ "OPENAI_API_KEY" } ∧
    (ConfidenceLevel.high = ConfidenceLevel.high ∨
      "OPENAI_API_KEY" = "GCP_PROJECT_ID") :=
  matchEnvVar_exact_layer
    ⟨"name", "OPENAI_API_KEY", "openai", .high, "OpenAI API key"⟩
    (by decide) "sk-test123"

/-- Every match produced by matchEnvVar carries the queried variable name. -/
theorem matchEnvVar_envVar (name value : String) (r : MatchResult)
    (h : matchEnvVar name value = some r) : r.envVar = name := by
  unfold matchEnvVar at h
  split at h
  · cases h
  · cases hf : EXACT_NAME_PATTERNS.find? (fun p => name == p.pattern) with
    | some p =>
      rw [hf] at h
      cases h
      rfl
    | none =>
      rw [hf] at h
      cases hv : matchValueShape value with
      | some vm =>
        rw [hv] at h
        cases h
        rfl
      | none =>
        rw [hv] at h
        cases hs : SUFFIX_PATTERNS.find? (fun sp => name.endsWith sp.1) with
        | some sp =>
          rw [hs] at h
          cases h
          rfl
        | none =>
          rw [hs] at h
          cases h

/-- A filterMap whose hits are determined images of their sources maps to a
sublist of the source images. -/
theorem filterMap_map_sublist {α β γ : Type _} (l : List α) (h : α → Option β)
    (f : α → γ) (g : β → γ) (H : ∀ a b, h a = some b → g b = f a) :
    ((l.filterMap h).map g).Sublist (l.map f) := by
  induction l with
  | nil => simp
  | cons a t ih =>
    cases hh : h a with
    | none =>
      simp only [List.filterMap_cons, hh, List.map_cons]
      exact ih.cons _
    | some b =>
      simp only [List.filterMap_cons, hh, List.map_cons]
      rw [H a b hh]
      exact ih.cons₂ _

/-- Combine two pairwise facts into a third. -/
theorem pairwise_combine {α : Type _} {R S T : α → α → Prop} :
    ∀ {l : List α}, l.Pairwise R → l.Pairwise S →
      (∀ a b, R a b → S a b → T a b) → l.Pairwise T := by
  intro l h1 h2 himp
  induction l with
  | nil => exact List.Pairwise.nil
  | cons a t ih =>
    rcases List.pairwise_cons.mp h1 with ⟨h1a, h1t⟩
    rcases List.pairwise_cons.mp h2 with ⟨h2a, h2t⟩
    exact List.pairwise_cons.mpr
      ⟨fun b hb => himp _ _ (h1a b hb) (h2a b hb), ih h1t h2t⟩

/-- C9: on an environment snapshot with distinct variable names (every
JavaScript environment object), the scanEnv output is ordered: confidence
rank never decreases (high before medium before low) and, within a tier,
variable names are strictly increasing alphabetically. -/
theorem scanEnv_sorted (env : List (String × Option String))
    (hnd : (env.map Prod.fst).Nodup) :
    (scanEnv env).Pairwise (fun a b =>
      confidenceOrder a.confidence < confidenceOrder b.confidence ∨
        (confidenceOrder a.confidence = confidenceOrder b.confidence ∧
          a.envVar < b.envVar)) := by
  have hG : ∀ (kv : String × Option String) r,
      (match kv.2 with
        | none => none
        | some v => if v = "" then none else matchEnvVar kv.1 v) = some r →
      MatchResult.envVar r = Prod.fst kv := by
    intro kv r h
    cases hv : kv.2 with
    | none =>
      rw [hv] at h
      cases h
    | some v =>
      rw [hv] at h
      by_cases he : v = ""
      · simp [he] at h
      · simp only [he, if_false] at h
        exact matchEnvVar_envVar kv.1 v r h
  have hsub := filterMap_map_sublist env
    (fun kv => match kv.2 with
      | none => none
      | some v => if v = "" then none else matchEnvVar kv.1 v)
    Prod.fst MatchResult.envVar hG
  have hnd2 := hnd.sublist hsub
  have hperm : List.Perm (scanEnv env) (env.filterMap (fun kv =>
      match kv.2 with
      | none => none
      | some v => if v = "" then none else matchEnvVar kv.1 v)) :=
    List.perm_insertionSort scanLE _
  have hnd3 : ((scanEnv env).map MatchResult.envVar).Nodup :=
    ((hperm.map MatchResult.envVar).nodup_iff).mpr hnd2
  have hpne : (scanEnv env).Pairwise (fun a b => a.envVar ≠ b.envVar) := by
    simpa [List.Nodup, List.pairwise_map] using hnd3
  have hsorted : (scanEnv env).Pairwise scanLE :=
    List.sorted_insertionSort scanLE _
  refine pairwise_combine hsorted hpne ?_
  intro a b hle hne
  rcases hle with h | ⟨he, hle2⟩
  · exact Or.inl h
  · exact Or.inr ⟨he, lt_of_le_of_ne hle2 hne⟩

/-- Witness for C9 at a concrete three-variable snapshot producing one
high-confidence and two medium-confidence matches. -/
theorem scanEnv_sorted_witness :
    (scanEnv [("ZEBRA_TOKEN", some "v1"), ("OPENAI_API_KEY", some "sk-1"),
              ("ALPHA_TOKEN", some "v2")]).Pairwise (fun a b =>
      confidenceOrder a.confidence < confidenceOrder b.confidence ∨
        (confidenceOrder a.confidence = confidenceOrder b.confidence ∧
          a.envVar < b.envVar)) :=
  scanEnv_sorted
    [("ZEBRA_TOKEN", some "v1"), ("OPENAI_API_KEY", some "sk-1"),
     ("ALPHA_TOKEN", some "v2")] (by decide)

end Envpkt
